import Mathlib

/-!
# Verification development for the terminal monitor (package cui, monitor.go)

The definitions below are a shallow embedding of the engine in monitor.go:
the paging arithmetic of shiftByNbPages, the fetch / key discovery / sort
pipeline of doQuery, the table renderer redrawTable, the detail and list
renderers, the focus switch choosePanel with the Tab and Enter handlers, and
the items and sources of the three example programs.

Conventions of the embedding:

* Go int values are modelled by Int.  The quantities involved are screen
  coordinates and line counts, far away from the 64-bit limits, so no wrap
  around is modelled.  Go integer division truncates toward zero: Int.tdiv.
* Go strings are modelled by String, that is, as UTF-8 text; strings.Compare
  is the lexicographic order of String, which on UTF-8 text is the byte-wise
  order.
* A panic (log.Panicf, nil dereference) is modelled by the value none of an
  Option result.
-/

namespace Cui

/-! ## Paging: monitorApp.shiftByNbPages -/

/-- Final positions computed by shiftByNbPages: the cursor (cx, cy) and the
origin (ox, oy) that are handed to SetCursor and SetOrigin. -/
structure PagePos where
  cx : Int
  cy : Int
  ox : Int
  oy : Int
  deriving DecidableEq, Repr

/-- The index y0 + nb*vy clamped as in the source:
if y > count then count else if y < 0 then 0 else y. -/
def shiftTarget (count vy oy0 cy0 nb : Int) : Int :=
  let y0 := oy0 + cy0
  let y := y0 + nb * vy
  if y > count then count else if y < 0 then 0 else y

/-- The arithmetic of monitorApp.shiftByNbPages (monitor.go, lines 398-427):
count is len(v.BufferLines()), vy the height of the view, (ox0, oy0) its
origin and (cx0, cy0) its cursor. -/
def shiftByNbPages (count vy ox0 oy0 cx0 cy0 nb : Int) : PagePos :=
  let y0 := oy0 + cy0
  let y := y0 + nb * vy
  let y := if y > count then count else if y < 0 then 0 else y
  if y < Int.tdiv vy 2 then
    -- head
    { cx := cx0, cy := y, ox := ox0, oy := 0 }
  else if y > count - Int.tdiv vy 2 then
    -- tail
    { cx := cx0, cy := vy - (count - y) - 1, ox := ox0, oy := count - vy }
  else
    -- body
    { cx := cx0, cy := Int.tdiv vy 2, ox := ox0, oy := y - Int.tdiv vy 2 }

/-- Clamp of x into the closed interval from lo to hi, as the paging section of
the specification words it. -/
def clamp (x lo hi : Int) : Int := max lo (min x hi)

/-- Reference definition of the paging step, written from the words of the
specification (section 4.6): target, then the head, tail and body regions. -/
def pagingSpec (count vy ox0 oy0 cx0 cy0 nb : Int) : PagePos :=
  let target := clamp (oy0 + cy0 + nb * vy) 0 count
  let half := Int.tdiv vy 2
  if target < half then
    { cx := cx0, cy := target, ox := ox0, oy := 0 }
  else if target > count - half then
    { cx := cx0, cy := vy - (count - target) - 1, ox := ox0, oy := count - vy }
  else
    { cx := cx0, cy := half, ox := ox0, oy := target - half }

/-- A starting position of the list view is valid when cursor and origin are
non-negative, the cursor is inside the viewport and the row under the cursor
is at most count. -/
def validStart (count vy oy0 cy0 : Int) : Prop :=
  0 ≤ oy0 ∧ 0 ≤ cy0 ∧ cy0 < vy ∧ oy0 + cy0 ≤ count

instance (count vy oy0 cy0 : Int) : Decidable (validStart count vy oy0 cy0) := by
  unfold validStart; infer_instance

/-- Checks of the terminal library applied by shiftByNbPages after the
arithmetic (monitor.go, lines 429-436).  View.SetCursor rejects a point outside
the view of size (vx, vy), View.SetOrigin rejects a negative coordinate; on
either error the source calls log.Panicf, modelled by none. -/
def applyShift (vx vy : Int) (p : PagePos) : Option PagePos :=
  if p.cx < 0 ∨ p.cx ≥ vx ∨ p.cy < 0 ∨ p.cy ≥ vy then none
  else if p.ox < 0 ∨ p.oy < 0 then none
  else some p

/-! ## Items, sources and the application state -/

/-- The interface MonitoredItem (monitor.go, lines 40-54).  The four methods
are side-effect free, so an item is the record of their results. -/
structure MonitoredItem where
  GetPrimaryKey : String
  GetKeys : List String
  GetValue : String → String
  GetDetail : String

/-- The interface Monitorable (monitor.go, lines 59-62): FetchAll returns the
pair (items, err); err is none for the Go value nil. -/
structure Monitorable where
  FetchAll : String → List MonitoredItem × Option String

/-- The type detailMode with its two constants. -/
inductive detailMode where
  | modeDetail
  | modeTable
  deriving DecidableEq, Repr

/-- The five panels of the application, named after the fields panelQuery,
panelFilter, panelError, panelList and panelDetail of monitorApp. -/
inductive Panel where
  | query
  | filter
  | error
  | list
  | detail
  deriving DecidableEq, Repr

/-- The colours of the terminal library used by the source. -/
inductive Color where
  | ColorDefault
  | ColorCyan
  | ColorYellow
  deriving DecidableEq, Repr

/-- The state of monitorApp with the state of its panels.
queryBuffer is the text returned by panelQuery.Buffer(), filterBuffer the text
returned by panelFilter.ViewBuffer(), detailBuffer and listBuffer the text
written to panelDetail and panelList since their last Clear.  listVx, listVy
are the size of panelList, (listCx, listCy) its cursor and (listOx, listOy) its
origin.  current is gui.CurrentView(), none before the first SetCurrentView.
bgQuery to bgDetail are the fields BgColor of the five panels. -/
structure monitorApp where
  queryBuffer : String
  filterBuffer : String
  detailBuffer : String
  mode : detailMode
  query : String
  err : Option String
  items : List MonitoredItem
  currentKey : String
  possibleKeys : List String
  listBuffer : String
  listVx : Int
  listVy : Int
  listCx : Int
  listCy : Int
  listOx : Int
  listOy : Int
  current : Option Panel
  bgQuery : Color
  bgFilter : Color
  bgError : Color
  bgList : Color
  bgDetail : Color

/-! ## The pipeline: monitorApp.doQuery -/

/-- The library function strings.Trim: drop the leading and the trailing
characters that belong to cutset. -/
def stringsTrim (s cutset : String) : String :=
  String.mk
    (((s.data.dropWhile (fun c => c ∈ cutset.data)).reverse.dropWhile
      (fun c => c ∈ cutset.data)).reverse)

/-- The method monitorApp.getKeyName (monitor.go, lines 455-461), on the item
found at the index. -/
def getKeyName (currentKey : String) (item : MonitoredItem) : String :=
  if currentKey ≠ "" then currentKey else item.GetPrimaryKey

/-- The method monitorApp.getKeyValue (monitor.go, line 463). -/
def getKeyValue (currentKey : String) (item : MonitoredItem) : String :=
  item.GetValue (getKeyName currentKey item)

/-- The library function strings.Compare: -1, 0 or +1. -/
def stringsCompare (a b : String) : Int :=
  if a = b then 0 else if a < b then -1 else 1

/-- The closure less of doQuery (monitor.go, line 492).  The source indexes
app.items at the time of the call; the model receives the two items found at
these indices. -/
def less (currentKey : String) (a b : MonitoredItem) : Bool :=
  decide (0 > stringsCompare (getKeyValue currentKey a) (getKeyValue currentKey b))

/-- The library function sort.Slice.  Its contract is that the slice is
reordered in place so that no element is less than an element placed before
it; the order among elements that compare equal is not specified.  It is
modelled by an insertion sort: each element is placed before the first
element that is not less than it. -/
def sortSlice {α : Type} (less : α → α → Bool) (l : List α) : List α :=
  l.insertionSort (fun a b => less b a = false)

/-- Assignment m[k] = true on a Go map[string]bool, kept as the list of its
keys. -/
def mapSet (m : List String) (k : String) : List String :=
  if k ∈ m then m else m ++ [k]

/-- The first loop of the key extraction (monitor.go, lines 478-484). -/
def extractKeys (items : List MonitoredItem) : List String :=
  items.foldl
    (fun m item => item.GetKeys.foldl mapSet (mapSet m item.GetPrimaryKey)) []

/-- The method sort.StringSlice.Sort: ascending order of the strings. -/
def stringSliceSort (l : List String) : List String :=
  l.insertionSort (fun a b => a ≤ b)

/-- The method monitorApp.doQuery (monitor.go, lines 465-494). -/
def doQuery (source : Monitorable) (app : monitorApp) : monitorApp :=
  let query := stringsTrim app.queryBuffer "  \r\n\t"
  let fetched := source.FetchAll query
  let app1 : monitorApp :=
    match fetched.2 with
    | some e => { app with query := query, err := some e, items := [] }
    | none => { app with query := query, err := none, items := fetched.1 }
  -- Extract the possible keys
  let possibleKeys := stringSliceSort (extractKeys app1.items)
  -- Sort the item according to the selected key
  { app1 with
    possibleKeys := possibleKeys
    items := sortSlice (less app1.currentKey) app1.items }

/-- Keys offered by an item: its primary key or one of its keys. -/
def offersKey (item : MonitoredItem) (k : String) : Prop :=
  item.GetPrimaryKey = k ∨ k ∈ item.GetKeys

/-- The items kept by doQuery before the sort: none after an error, the
returned ones otherwise. -/
def keptItems (fetched : List MonitoredItem × Option String) : List MonitoredItem :=
  match fetched.2 with
  | some _ => []
  | none => fetched.1

/-! ## The table renderer: monitorApp.redrawTable -/

/-- The part of the library package regexp used by redrawTable.  Compile gives
none when the pattern is rejected: the source then keeps the nil pointer that
regexp.Compile returns next to the error. -/
structure RegexpLib where
  Regexp : Type
  Compile : String → Option Regexp
  MatchString : Regexp → String → Bool

/-- Split of a character list at every occurrence of sep. -/
def splitChars (sep : Char) : List Char → List (List Char)
  | [] => [[]]
  | c :: cs =>
    if c = sep then [] :: splitChars sep cs
    else
      match splitChars sep cs with
      | [] => [[c]]
      | w :: ws => (c :: w) :: ws

/-- The library function strings.Split for a separator of one character. -/
def stringsSplit (s : String) (sep : Char) : List String :=
  (splitChars sep s.data).map String.mk

/-- The patterns of redrawTable (monitor.go, lines 542-546): the filter text
split at the commas, each token trimmed. -/
def filterPatterns (csp : String) : List String :=
  (stringsSplit csp ',').map (fun p => stringsTrim p " \t\n\r")

/-- The matchers of redrawTable (monitor.go, lines 547-551): the result of
Compile is appended whether or not the compilation failed. -/
def compileMatchers (lib : RegexpLib) (patterns : List String) :
    List (Option lib.Regexp) :=
  patterns.map lib.Compile

/-- The closure matches of redrawTable (monitor.go, lines 552-559).  Calling
MatchString on a nil matcher is a nil pointer dereference: none. -/
def matchesKey (lib : RegexpLib) : List (Option lib.Regexp) → String → Option Bool
  | [], _ => some false
  | none :: _, _ => none
  | some m :: rest, k =>
    if lib.MatchString m k then some true else matchesKey lib rest k

/-- The inner loop of redrawTable over item.GetKeys() (monitor.go, lines
568-574).  The state is the text written so far and the variable separator. -/
def rowLoop (lib : RegexpLib) (matchers : List (Option lib.Regexp))
    (item : MonitoredItem) (currentKey : String) :
    List String → String × String → Option (String × String)
  | [], st => some st
  | k :: ks, st =>
    if k = currentKey then rowLoop lib matchers item currentKey ks st
    else
      match matchesKey lib matchers k with
      | none => none
      | some false => rowLoop lib matchers item currentKey ks st
      | some true =>
        rowLoop lib matchers item currentKey ks
          (st.1 ++ st.2 ++ item.GetValue k, "\t")

/-- The outer loop of redrawTable over app.items (monitor.go, lines 561-575).
The state is the text written so far and the variable crlf. -/
def tableLoop (lib : RegexpLib) (matchers : List (Option lib.Regexp))
    (appKey : String) : List MonitoredItem → String × String → Option String
  | [], st => some st.1
  | item :: rest, st =>
    match rowLoop lib matchers item (getKeyName appKey item) item.GetKeys
        (st.1 ++ st.2, "") with
    | none => none
    | some st1 => tableLoop lib matchers appKey rest (st1.1, "\n")

/-- The text that redrawTable writes to the tabwriter w in table mode, none
when the rendering panics. -/
def tableText (lib : RegexpLib) (app : monitorApp) : Option String :=
  tableLoop lib (compileMatchers lib (filterPatterns app.filterBuffer))
    app.currentKey app.items ("", "")

/-- The method monitorApp.redrawTable (monitor.go, lines 534-577).  The
parameter tabwriter is the formatting done by the library text/tabwriter
between the text written to w and the text that Flush hands to panelDetail. -/
def redrawTable (lib : RegexpLib) (tabwriter : String → String)
    (app : monitorApp) : Option monitorApp :=
  if app.mode ≠ detailMode.modeTable then some app
  else
    match tableText lib app with
    | none => none
    | some text => some { app with detailBuffer := tabwriter text }

/-- A small regular expression library used to evaluate the renderer on
concrete filters: the pattern "(" is rejected, the pattern ".*" matches every
key, and any other pattern matches the keys that contain it. -/
def literalRegexp : RegexpLib where
  Regexp := String
  Compile := fun p => if p = "(" then none else some p
  MatchString := fun r k => decide (r = ".*" ∨ r.data <:+: k.data)

/-- The keys of an item kept by the table renderer as the specification words
it (section 4.5): the keys of the item, in its own order, that differ from the
effective key and match one of the compiled filters. -/
def keptKeys (lib : RegexpLib) (matchers : List lib.Regexp) (appKey : String)
    (item : MonitoredItem) : List String :=
  item.GetKeys.filter (fun k =>
    decide (k ≠ getKeyName appKey item) && matchers.any (fun m => lib.MatchString m k))

/-- Reference row of the table renderer, written from the words of the
specification: the values of the kept keys joined by a single tab. -/
def rowSpec (lib : RegexpLib) (matchers : List lib.Regexp) (appKey : String)
    (item : MonitoredItem) : String :=
  String.intercalate "\t" ((keptKeys lib matchers appKey item).map item.GetValue)

/-- Reference text of the table renderer: one row per item, in the order of
the items. -/
def tableSpec (lib : RegexpLib) (matchers : List lib.Regexp) (appKey : String)
    (items : List MonitoredItem) : String :=
  String.intercalate "\n" (items.map (rowSpec lib matchers appKey))

/-- The text added by a join to what precedes it: nothing for an empty list,
otherwise the separator first, the elements and the separator sep between
them. -/
def joinTail (first sep : String) : List String → String
  | [] => ""
  | v :: vs => first ++ String.intercalate.go v sep vs

/-! ## Focus, list and detail rendering, key handlers -/

/-- The field BgColor of a panel. -/
def panelBgColor (app : monitorApp) : Panel → Color
  | Panel.query => app.bgQuery
  | Panel.filter => app.bgFilter
  | Panel.error => app.bgError
  | Panel.list => app.bgList
  | Panel.detail => app.bgDetail

/-- The assignment panel.BgColor = c. -/
def setPanelBgColor (panel : Panel) (c : Color) (app : monitorApp) : monitorApp :=
  match panel with
  | Panel.query => { app with bgQuery := c }
  | Panel.filter => { app with bgFilter := c }
  | Panel.error => { app with bgError := c }
  | Panel.list => { app with bgList := c }
  | Panel.detail => { app with bgDetail := c }

/-- The method monitorApp.choosePanel (monitor.go, lines 442-453).  The five
panels exist once createPanels has run, so SetCurrentView succeeds and returns
the panel. -/
def choosePanel (panel : Panel) (app : monitorApp) : monitorApp :=
  let app := { app with current := some panel }
  let app := { app with bgQuery := Color.ColorDefault }
  let app := { app with bgError := Color.ColorDefault }
  let app := { app with bgList := Color.ColorDefault }
  let app := { app with bgDetail := Color.ColorDefault }
  setPanelBgColor panel Color.ColorCyan app

/-- The method monitorApp.redrawDetail (monitor.go, lines 496-512).  Indexing
app.items with a negative index is a run time panic: none. -/
def redrawDetail (app : monitorApp) : Option monitorApp :=
  let cy := app.listCy
  let oy := app.listOy
  let index := cy + oy
  let current : Option (Option MonitoredItem) :=
    if index < (app.items.length : Int) then
      (if index < 0 then none else some app.items[index.toNat]?)
    else some none
  match current with
  | none => none
  | some current =>
    if app.mode = detailMode.modeDetail then
      -- panelDetail.Clear()
      let app := { app with detailBuffer := "" }
      match current with
      | some item => some { app with detailBuffer := app.detailBuffer ++ item.GetDetail }
      | none => some app
    else some app

/-- The loop of redrawList over app.items (monitor.go, lines 517-525).  The
state is the text written so far and the variable separator. -/
def listLoop (currentKey : String) : List MonitoredItem → String × String → String
  | [], st => st.1
  | item :: rest, st =>
    let k := if currentKey = "" then item.GetPrimaryKey else currentKey
    listLoop currentKey rest (st.1 ++ st.2 ++ item.GetValue k, "\n")

/-- The library method View.SetOrigin on panelList: a negative coordinate is
an error and leaves the origin as it is. -/
def listSetOrigin (x y : Int) (app : monitorApp) : monitorApp :=
  if x < 0 ∨ y < 0 then app else { app with listOx := x, listOy := y }

/-- The library method View.SetCursor on panelList: a point outside the view
is an error and leaves the cursor as it is. -/
def listSetCursor (x y : Int) (app : monitorApp) : monitorApp :=
  if x < 0 ∨ x ≥ app.listVx ∨ y < 0 ∨ y ≥ app.listVy then app
  else { app with listCx := x, listCy := y }

/-- The method monitorApp.redrawList (monitor.go, lines 514-532).  The errors
of SetOrigin and SetCursor are not looked at by the source. -/
def redrawList (app : monitorApp) : monitorApp :=
  -- panelList.Clear(), panelDetail.Clear()
  let app := { app with listBuffer := "", detailBuffer := "" }
  let app := { app with
    listBuffer := app.listBuffer ++ listLoop app.currentKey app.items ("", "") }
  if app.err = none then
    let app := choosePanel Panel.list app
    let app := listSetOrigin 0 0 app
    listSetCursor 0 0 app
  else app

/-- The handler bound to the Enter key (monitor.go, lines 257-263). -/
def enterHandler (lib : RegexpLib) (tabwriter : String → String)
    (source : Monitorable) (app : monitorApp) : Option monitorApp :=
  let app := doQuery source app
  let app := redrawList app
  redrawTable lib tabwriter app

/-- The handler bound to the Tab key (monitor.go, lines 216-231). -/
def tabHandler (lib : RegexpLib) (tabwriter : String → String)
    (source : Monitorable) (app : monitorApp) : Option monitorApp :=
  match app.current with
  | some Panel.query =>
    let app := doQuery source app
    let app := redrawList app
    match redrawTable lib tabwriter app with
    | none => none
    | some app => some (choosePanel Panel.filter app)
  | some Panel.filter =>
    match redrawTable lib tabwriter app with
    | none => none
    | some app => some (choosePanel Panel.list app)
  | some Panel.list => some (choosePanel Panel.query app)
  | _ => some app

/-- The constants heightQuery, heightFilter and widthList (monitor.go, lines
18-23). -/
def heightQuery : Int := 1

def heightFilter : Int := 1

def widthList : Int := 20

/-- The method monitorApp.dimensionList (monitor.go, lines 322-325) for a
terminal of height maxY: the corners x0, y0, x1, y1 of panelList. -/
def dimensionList (maxY : Int) : Int × Int × Int × Int :=
  (0, heightQuery + 2 + heightFilter + 2, widthList, maxY - 1)

/-- The state built by Monitor and createPanels (monitor.go, lines 98-102 and
124-210) for a terminal of height maxY: mode detail, the first query written
to the query panel, the pattern matching everything written to the filter
panel, every BgColor at its default.  The size of a view is
(x1 - x0 - 1, y1 - y0 - 1). -/
def createPanels (firstQuery : String) (maxY : Int) : monitorApp where
  queryBuffer := firstQuery
  filterBuffer := ".*"
  detailBuffer := ""
  mode := detailMode.modeDetail
  query := firstQuery
  err := none
  items := []
  currentKey := ""
  possibleKeys := []
  listBuffer := ""
  listVx := (dimensionList maxY).2.2.1 - (dimensionList maxY).1 - 1
  listVy := (dimensionList maxY).2.2.2 - (dimensionList maxY).2.1 - 1
  listCx := 0
  listCy := 0
  listOx := 0
  listOy := 0
  current := none
  bgQuery := Color.ColorDefault
  bgFilter := Color.ColorDefault
  bgError := Color.ColorDefault
  bgList := Color.ColorDefault
  bgDetail := Color.ColorDefault

/-- The state of the application when Monitor enters the main loop
(monitor.go, lines 112-115): createPanels, doQuery, choosePanel(panelQuery). -/
def startup (source : Monitorable) (firstQuery : String) (maxY : Int) : monitorApp :=
  choosePanel Panel.query (doQuery source (createPanels firstQuery maxY))

/-- The table renderer cannot reach a nil matcher: the application is in detail
mode, or every token of the filter text compiles. -/
def tableRenders (lib : RegexpLib) (app : monitorApp) : Prop :=
  app.mode = detailMode.modeDetail ∨
    ∀ p ∈ filterPatterns app.filterBuffer, (lib.Compile p).isSome = true

/-! ## The example items and sources (examples/test-paths, test-maps, test-exten) -/

/-- The struct fileItem (paths.go, lines 30-35); Mode and CTime are kept as the
numbers the library types fs.FileMode and time.Time wrap. -/
structure fileItem where
  Path : String
  Size : Int
  Mode : Nat
  CTime : Int

/-- The method fileItem.GetKeys (paths.go, line 39). -/
def fileItem.GetKeys (_fi : fileItem) : List String :=
  ["path", "size", "mode", "ctime"]

/-- The method fileItem.GetValue (paths.go, lines 41-54).  modeString and
timeString are the library methods fs.FileMode.String and time.Time.String;
strconv.FormatInt in base 10 is toString. -/
def fileItem.GetValue (modeString : Nat → String) (timeString : Int → String)
    (fi : fileItem) (k : String) : String :=
  if k = "path" then fi.Path
  else if k = "size" then toString fi.Size
  else if k = "mode" then modeString fi.Mode
  else if k = "ctime" then timeString fi.CTime
  else "-"

/-- The type mapItem (maps.go, line 35), a Go map from string to string, kept
as the list of its entries; the keys are distinct. -/
abbrev mapItem := List (String × String)

/-- The method mapItem.GetKeys (maps.go, lines 39-45): the keys of the map, in
the order of the iteration. -/
def mapItem.GetKeys (mi : mapItem) : List String :=
  mi.map Prod.fst

/-- The method mapItem.GetValue (maps.go, line 47): the map lookup, the zero
value "" for an absent key. -/
def mapItem.GetValue (mi : mapItem) (k : String) : String :=
  match mi.lookup k with
  | some v => v
  | none => ""

/-- The type ObjectItem (exten.go, line 28), a Go map from string to
interface values, kept as the list of its entries.  An interface value is none
for nil and otherwise some text, the text that fmt.Sprint prints for it. -/
abbrev ObjectItem := List (String × Option String)

/-- The library function fmt.Sprint on one interface value. -/
def fmtSprint : Option String → String
  | none => "<nil>"
  | some text => text

/-- The method ObjectItem.GetKeys (exten.go, lines 32-38). -/
def ObjectItem.GetKeys (fi : ObjectItem) : List String :=
  fi.map Prod.fst

/-- The method ObjectItem.GetValue (exten.go, line 40): fmt.Sprint of the map
lookup, which is the nil interface for an absent key. -/
def ObjectItem.GetValue (fi : ObjectItem) (k : String) : String :=
  fmtSprint
    (match fi.lookup k with
     | some v => v
     | none => none)

/-- What a source does outside the program while it fetches. -/
inductive SourceEvent where
  | readDir (path : String)
  | itemLookup (index : Nat)
  | dialHTTP (address : String)
  | rpcCall (method : String)
  deriving DecidableEq, Repr

/-- The result of FetchAll, the pair (items, err), with the events performed
on the way, in order. -/
structure FetchResult (ι : Type) where
  items : List ι
  err : Option String
  events : List SourceEvent

/-- The method directorySource.FetchAll (paths.go, lines 64-84).  isAbs is
filepath.IsAbs; readDir is os.ReadDir followed by entry.Info() on each entry,
giving the entries read and the error. -/
def directorySource.FetchAll (isAbs : String → Bool)
    (readDir : String → List fileItem × Option String) (query : String) :
    FetchResult fileItem :=
  if query = "" then { items := [], err := some "Empty query", events := [] }
  else if !isAbs query then
    { items := [], err := some "Relative query path", events := [] }
  else
    { items := (readDir query).1, err := (readDir query).2,
      events := [SourceEvent.readDir query] }

/-- The loop of staticMapsSource.FetchAll (maps.go, lines 70-75): n more
lookups in the global items starting at offset, an unsigned 64-bit counter. -/
def lookupLoop {ι : Type} (items : List ι) :
    Nat → Nat → List ι × List SourceEvent → List ι × List SourceEvent
  | 0, _, acc => acc
  | n + 1, offset, acc =>
    match items[offset % items.length]? with
    | some item =>
      lookupLoop items n ((offset + 1) % 2 ^ 64)
        (acc.1 ++ [item], acc.2 ++ [SourceEvent.itemLookup (offset % items.length)])
    | none => acc

/-- The method staticMapsSource.FetchAll (maps.go, lines 57-77) over the global
slice items.  offsetOf is the number u0 xor u1 read from the MD5 checksum of
the query.  With an empty global slice the remainder by len(items) is a
division by zero, a run time panic: none. -/
def staticMapsSource.FetchAll {ι : Type} (items : List ι) (offsetOf : String → Nat)
    (query : String) : Option (FetchResult ι) :=
  if query = "" then some { items := [], err := some "Empty query", events := [] }
  else if items.length = 0 then none
  else
    let r := lookupLoop items 1024 (offsetOf query % 2 ^ 64) ([], [])
    some { items := r.1, err := none, events := r.2 }

/-- The method extenTitanObjectsSource.FetchAll (exten.go, lines 65-94).
dial is rpc.DialHTTP (its error, if any), call is client.Call of
Sys.TitanObjects (the payload and the error), decode is the JSON decoding of
the payload into a slice of ObjectItem (the slice and the error). -/
def extenTitanObjectsSource.FetchAll (dial : String → Option String)
    (call : String → String × Option String)
    (decode : String → List ObjectItem × Option String) (query : String) :
    FetchResult ObjectItem :=
  if query = "" then { items := [], err := some "Empty query", events := [] }
  else
    match dial (query ++ ":2233") with
    | some e =>
      { items := [], err := some ("can't connect to systest agent: " ++ e),
        events := [SourceEvent.dialHTTP (query ++ ":2233")] }
    | none =>
      match (call "Sys.TitanObjects").2 with
      | some e =>
        { items := [], err := some ("Failed to query systest-agent: " ++ e),
          events := [SourceEvent.dialHTTP (query ++ ":2233"),
            SourceEvent.rpcCall "Sys.TitanObjects"] }
      | none =>
        match (decode (call "Sys.TitanObjects").1).2 with
        | some e =>
          { items := [], err := some ("Format error: not an array of maps: " ++ e),
            events := [SourceEvent.dialHTTP (query ++ ":2233"),
              SourceEvent.rpcCall "Sys.TitanObjects"] }
        | none =>
          { items := (decode (call "Sys.TitanObjects").1).1, err := none,
            events := [SourceEvent.dialHTTP (query ++ ":2233"),
              SourceEvent.rpcCall "Sys.TitanObjects"] }

/-! ## Sample data

Two items and a source in the style of the example sources of the repository
(an empty query is rejected), used to evaluate the definitions on concrete
inputs. -/

/-- A sample item with the keys name and size. -/
def sampleItemB : MonitoredItem where
  GetPrimaryKey := "name"
  GetKeys := ["name", "size"]
  GetValue := fun k => if k = "name" then "b.txt" else if k = "size" then "10" else ""
  GetDetail := "b.txt (10)"

/-- A second sample item with the keys name, size and mode. -/
def sampleItemA : MonitoredItem where
  GetPrimaryKey := "name"
  GetKeys := ["name", "size", "mode"]
  GetValue := fun k =>
    if k = "name" then "a.txt" else if k = "size" then "7" else
    if k = "mode" then "rw" else ""
  GetDetail := "a.txt (7)"

/-- A sample source: the empty query is an error, any other query returns the
two sample items. -/
def sampleSource : Monitorable where
  FetchAll := fun query =>
    if query = "" then ([], some "Empty query") else ([sampleItemB, sampleItemA], none)

/-- A sample application state; the query panel holds the given text. -/
def sampleApp (queryText filterText : String) (mode : detailMode) : monitorApp where
  queryBuffer := queryText
  filterBuffer := filterText
  detailBuffer := ""
  mode := mode
  query := ""
  err := none
  items := [sampleItemB, sampleItemA]
  currentKey := ""
  possibleKeys := ["stale"]
  listBuffer := ""
  listVx := 19
  listVy := 16
  listCx := 0
  listCy := 0
  listOx := 0
  listOy := 0
  current := some Panel.query
  bgQuery := Color.ColorCyan
  bgFilter := Color.ColorDefault
  bgError := Color.ColorDefault
  bgList := Color.ColorDefault
  bgDetail := Color.ColorDefault

/-- A sample source that returns the single item sampleItemA for a query
that is not empty. -/
def sampleSourceOne : Monitorable where
  FetchAll := fun query =>
    if query = "" then ([], some "Empty query") else ([sampleItemA], none)

/-- A sample file item. -/
def sampleFile : fileItem where
  Path := "syslog"
  Size := 2048
  Mode := 420
  CTime := 0

/-- A sample object item with the single key named key. -/
def sampleObject : ObjectItem := [("key", some "vol-1")]

/-- A sample map item. -/
def sampleMap : mapItem := [("address", "cafe"), ("spare", "64")]

/-! ### Theorems on paging -/

theorem shiftTarget_eq_clamp (count vy oy0 cy0 nb : Int) (hc : 0 ≤ count) :
    shiftTarget count vy oy0 cy0 nb = clamp (oy0 + cy0 + nb * vy) 0 count := by
  unfold shiftTarget clamp
  simp only
  split_ifs <;> omega

theorem tdiv_two_eq (vy : Int) (hv : 0 ≤ vy) : Int.tdiv vy 2 = vy / 2 :=
  Int.tdiv_eq_ediv hv (by decide)

theorem applyShift_accepts (vx vy : Int) (p : PagePos) (h1 : 0 ≤ p.cx) (h2 : p.cx < vx)
    (h3 : 0 ≤ p.cy) (h4 : p.cy < vy) (h5 : 0 ≤ p.ox) (h6 : 0 ≤ p.oy) :
    applyShift vx vy p = some p := by
  unfold applyShift
  rw [if_neg (by omega), if_neg (by omega)]

/-- C1 (as stated, refuted): with count = 100 and vy = 20, a page down from the
valid position originY = 70, cursorY = 5 has the clamped target 95 and lands in
the tail region, where the new originY + cursorY is 94. -/
theorem shiftByNbPages_sum_ne_target :
    validStart 100 20 70 5 ∧
    (shiftByNbPages 100 20 0 70 0 5 1).oy + (shiftByNbPages 100 20 0 70 0 5 1).cy = 94 ∧
    clamp (70 + 5 + 1 * 20) 0 100 = 95 ∧
    (shiftByNbPages 100 20 0 70 0 5 1).oy + (shiftByNbPages 100 20 0 70 0 5 1).cy
      ≠ clamp (70 + 5 + 1 * 20) 0 100 := by
  decide

/-- C1 (amended): for count >= 0, vy > 0 and a starting view with
0 <= cursorX < vx and originX >= 0, with target the clamped index: when the
target is in the head or the body region, the positions computed by
shiftByNbPages are accepted by SetCursor and SetOrigin and the new
originY + cursorY equals the target; when the target is in the tail region
(target >= vy/2 and target > count - vy/2) and count >= vy, the positions are
accepted and the new originY + cursorY equals the target minus one.  The tail
region with count < vy is left out. -/
theorem shiftByNbPages_sum (vx count vy ox0 oy0 cx0 cy0 nb : Int)
    (hc : 0 ≤ count) (hv : 0 < vy) (hcx : 0 ≤ cx0 ∧ cx0 < vx) (hox : 0 ≤ ox0) :
    ((clamp (oy0 + cy0 + nb * vy) 0 count < Int.tdiv vy 2 ∨
        clamp (oy0 + cy0 + nb * vy) 0 count ≤ count - Int.tdiv vy 2) →
      applyShift vx vy (shiftByNbPages count vy ox0 oy0 cx0 cy0 nb)
        = some (shiftByNbPages count vy ox0 oy0 cx0 cy0 nb) ∧
      (shiftByNbPages count vy ox0 oy0 cx0 cy0 nb).oy
          + (shiftByNbPages count vy ox0 oy0 cx0 cy0 nb).cy
        = clamp (oy0 + cy0 + nb * vy) 0 count) ∧
    ((Int.tdiv vy 2 ≤ clamp (oy0 + cy0 + nb * vy) 0 count ∧
        clamp (oy0 + cy0 + nb * vy) 0 count > count - Int.tdiv vy 2 ∧
        vy ≤ count) →
      applyShift vx vy (shiftByNbPages count vy ox0 oy0 cx0 cy0 nb)
        = some (shiftByNbPages count vy ox0 oy0 cx0 cy0 nb) ∧
      (shiftByNbPages count vy ox0 oy0 cx0 cy0 nb).oy
          + (shiftByNbPages count vy ox0 oy0 cx0 cy0 nb).cy
        = clamp (oy0 + cy0 + nb * vy) 0 count - 1) := by
  have hd : Int.tdiv vy 2 = vy / 2 := tdiv_two_eq vy (le_of_lt hv)
  have hbounds : 0 ≤ clamp (oy0 + cy0 + nb * vy) 0 count ∧
      clamp (oy0 + cy0 + nb * vy) 0 count ≤ count := by
    unfold clamp
    omega
  generalize htarget : clamp (oy0 + cy0 + nb * vy) 0 count = target at hbounds ⊢
  generalize hpd : shiftByNbPages count vy ox0 oy0 cx0 cy0 nb = p
  have ht : shiftTarget count vy oy0 cy0 nb = target :=
    (shiftTarget_eq_clamp count vy oy0 cy0 nb hc).trans htarget
  have hp : p = shiftByNbPages count vy ox0 oy0 cx0 cy0 nb := hpd.symm
  unfold shiftByNbPages at hp
  unfold shiftTarget at ht
  simp only at ht hp
  rw [ht, hd] at hp
  rw [hd]
  constructor
  · intro h
    by_cases h1 : target < vy / 2
    · rw [if_pos h1] at hp
      rw [hp]
      refine ⟨applyShift_accepts vx vy _ hcx.1 hcx.2 ?_ ?_ hox ?_, ?_⟩ <;>
        simp only <;> omega
    · have h2 : ¬ target > count - vy / 2 := by
        rcases h with h | h
        · exact absurd h h1
        · omega
      rw [if_neg h1, if_neg h2] at hp
      rw [hp]
      refine ⟨applyShift_accepts vx vy _ hcx.1 hcx.2 ?_ ?_ hox ?_, ?_⟩ <;>
        simp only <;> omega
  · rintro ⟨h1, h2, h3⟩
    rw [if_neg (by omega), if_pos h2] at hp
    rw [hp]
    refine ⟨applyShift_accepts vx vy _ hcx.1 hcx.2 ?_ ?_ hox ?_, ?_⟩ <;>
      simp only <;> omega

/-- Witness of C1 (amended): a tail case with count >= vy (count 100, vy 20,
page down from originY = 70, cursorY = 5, in a view 19 columns wide): the
positions are accepted and the sum is 95 - 1. -/
theorem shiftByNbPages_sum_witness :
    applyShift 19 20 (shiftByNbPages 100 20 0 70 0 5 1)
      = some (shiftByNbPages 100 20 0 70 0 5 1) ∧
    (shiftByNbPages 100 20 0 70 0 5 1).oy + (shiftByNbPages 100 20 0 70 0 5 1).cy
      = clamp (70 + 5 + 1 * 20) 0 100 - 1 :=
  (shiftByNbPages_sum 19 100 20 0 70 0 5 1 (by decide) (by decide) (by decide)
    (by decide)).2 (by decide)

/-- C2 (failing input): with count = 15 and vy = 20, a page down from the valid
position (0, 0) computes originY = -5, outside the interval from 0 to
max 0 (count - vy) = 0; SetOrigin rejects it and the source panics. -/
theorem shiftByNbPages_negative_origin :
    validStart 15 20 0 0 ∧
    (shiftByNbPages 15 20 0 0 0 0 1).oy = -5 ∧
    ¬ (0 ≤ (shiftByNbPages 15 20 0 0 0 0 1).oy ∧
       (shiftByNbPages 15 20 0 0 0 0 1).oy ≤ max 0 (15 - 20)) ∧
    applyShift 20 20 (shiftByNbPages 15 20 0 0 0 0 1) = none := by
  decide

/-- C3: for count >= 0 and vy > 0 the cursorY computed by shiftByNbPages
satisfies 0 <= cursorY < vy, whatever the region, the starting position and
the number of pages. -/
theorem shiftByNbPages_cursor_in_view (count vy ox0 oy0 cx0 cy0 nb : Int)
    (hc : 0 ≤ count) (hv : 0 < vy) :
    0 ≤ (shiftByNbPages count vy ox0 oy0 cx0 cy0 nb).cy ∧
    (shiftByNbPages count vy ox0 oy0 cx0 cy0 nb).cy < vy := by
  have hd : Int.tdiv vy 2 = vy / 2 := tdiv_two_eq vy (le_of_lt hv)
  unfold shiftByNbPages
  simp only [hd]
  split_ifs <;> simp only <;> omega

/-- Witness of C3: a tail case, count = 100, vy = 20, page down from originY =
70, cursorY = 5. -/
theorem shiftByNbPages_cursor_in_view_witness :
    (0 : Int) ≤ 100 ∧ (0 : Int) < 20 ∧
    0 ≤ (shiftByNbPages 100 20 0 70 0 5 1).cy ∧
    (shiftByNbPages 100 20 0 70 0 5 1).cy < 20 :=
  ⟨by decide, by decide,
    shiftByNbPages_cursor_in_view 100 20 0 70 0 5 1 (by decide) (by decide)⟩

/-- C4: shiftByNbPages equals the reference definition of the paging algorithm
for every count (a length, hence a natural number) and all other inputs, it
leaves cursorX and originX unchanged, and the two scenarios of the
specification evaluate to cursorY = 10, originY = 10 and to cursorY = 19,
originY = -5. -/
theorem shiftByNbPages_eq_pagingSpec :
    (∀ (count : Nat) (vy ox0 oy0 cx0 cy0 nb : Int),
      shiftByNbPages count vy ox0 oy0 cx0 cy0 nb
        = pagingSpec count vy ox0 oy0 cx0 cy0 nb ∧
      (shiftByNbPages count vy ox0 oy0 cx0 cy0 nb).cx = cx0 ∧
      (shiftByNbPages count vy ox0 oy0 cx0 cy0 nb).ox = ox0) ∧
    shiftByNbPages 100 20 0 0 0 0 1 = { cx := 0, cy := 10, ox := 0, oy := 10 } ∧
    shiftByNbPages 15 20 0 0 0 0 1 = { cx := 0, cy := 19, ox := 0, oy := -5 } := by
  refine ⟨?_, by decide, by decide⟩
  intro count vy ox0 oy0 cx0 cy0 nb
  have hc : (0 : Int) ≤ count := Int.ofNat_nonneg count
  have ht := shiftTarget_eq_clamp count vy oy0 cy0 nb hc
  unfold shiftTarget at ht
  simp only at ht
  refine ⟨?_, ?_, ?_⟩
  · unfold shiftByNbPages pagingSpec
    simp only [ht]
  · unfold shiftByNbPages
    simp only
    split_ifs <;> rfl
  · unfold shiftByNbPages
    simp only
    split_ifs <;> rfl

/-! ### Lemmas on the pipeline -/

theorem less_iff (ck : String) (a b : MonitoredItem) :
    less ck a b = true ↔ getKeyValue ck a < getKeyValue ck b := by
  unfold less stringsCompare
  by_cases h : getKeyValue ck a = getKeyValue ck b
  · simp [h]
  · by_cases h2 : getKeyValue ck a < getKeyValue ck b <;> simp [h, h2]

theorem less_eq_false_iff (ck : String) (a b : MonitoredItem) :
    less ck b a = false ↔ getKeyValue ck a ≤ getKeyValue ck b := by
  rw [← Bool.not_eq_true, less_iff, not_lt]

theorem sortSlice_perm {α : Type} (lt : α → α → Bool) (l : List α) :
    List.Perm (sortSlice lt l) l :=
  List.perm_insertionSort _ l

theorem sortSlice_less_sorted (ck : String) (l : List MonitoredItem) :
    List.Pairwise (fun a b => getKeyValue ck a ≤ getKeyValue ck b)
      (sortSlice (less ck) l) := by
  unfold sortSlice
  haveI : IsTotal MonitoredItem (fun a b => less ck b a = false) :=
    ⟨fun a b => by
      simp only [less_eq_false_iff]
      exact le_total _ _⟩
  haveI : IsTrans MonitoredItem (fun a b => less ck b a = false) :=
    ⟨fun a b c h1 h2 => by
      simp only [less_eq_false_iff] at h1 h2 ⊢
      exact le_trans h1 h2⟩
  have h := List.sorted_insertionSort (fun a b : MonitoredItem => less ck b a = false) l
  exact List.Pairwise.imp (fun {a b} hab => (less_eq_false_iff ck a b).1 hab) h

theorem mem_mapSet (m : List String) (k x : String) :
    x ∈ mapSet m k ↔ x ∈ m ∨ x = k := by
  unfold mapSet
  split_ifs with h
  · constructor
    · exact fun hx => Or.inl hx
    · rintro (hx | hx)
      · exact hx
      · exact hx ▸ h
  · simp

theorem nodup_mapSet (m : List String) (k : String) (hm : m.Nodup) :
    (mapSet m k).Nodup := by
  unfold mapSet
  split_ifs with h
  · exact hm
  · rw [List.nodup_append]
    refine ⟨hm, List.nodup_singleton k, ?_⟩
    intro a ha hb
    rw [List.mem_singleton] at hb
    exact h (hb ▸ ha)

theorem mem_foldl_mapSet (ks : List String) (m : List String) (x : String) :
    x ∈ ks.foldl mapSet m ↔ x ∈ m ∨ x ∈ ks := by
  induction ks generalizing m with
  | nil => simp
  | cons k ks ih =>
    rw [List.foldl_cons, ih, mem_mapSet, List.mem_cons]
    tauto

theorem nodup_foldl_mapSet (ks : List String) (m : List String) (hm : m.Nodup) :
    (ks.foldl mapSet m).Nodup := by
  induction ks generalizing m with
  | nil => exact hm
  | cons k ks ih => exact ih _ (nodup_mapSet m k hm)

theorem mem_extract_aux (items : List MonitoredItem) (m : List String) (x : String) :
    x ∈ items.foldl
        (fun m item => item.GetKeys.foldl mapSet (mapSet m item.GetPrimaryKey)) m
      ↔ x ∈ m ∨ ∃ item ∈ items, offersKey item x := by
  induction items generalizing m with
  | nil => simp
  | cons it rest ih =>
    rw [List.foldl_cons, ih, mem_foldl_mapSet, mem_mapSet]
    simp only [List.mem_cons, exists_eq_or_imp, offersKey]
    constructor
    · rintro (((h | h) | h) | h)
      · exact Or.inl h
      · exact Or.inr (Or.inl (Or.inl h.symm))
      · exact Or.inr (Or.inl (Or.inr h))
      · exact Or.inr (Or.inr h)
    · rintro (h | (h | h) | h)
      · exact Or.inl (Or.inl (Or.inl h))
      · exact Or.inl (Or.inl (Or.inr h.symm))
      · exact Or.inl (Or.inr h)
      · exact Or.inr h

theorem nodup_extract_aux (items : List MonitoredItem) (m : List String) (hm : m.Nodup) :
    (items.foldl
        (fun m item => item.GetKeys.foldl mapSet (mapSet m item.GetPrimaryKey)) m).Nodup := by
  induction items generalizing m with
  | nil => exact hm
  | cons it rest ih =>
    exact ih _ (nodup_foldl_mapSet _ _ (nodup_mapSet m _ hm))

theorem mem_extractKeys (items : List MonitoredItem) (x : String) :
    x ∈ extractKeys items ↔ ∃ item ∈ items, offersKey item x := by
  unfold extractKeys
  rw [mem_extract_aux]
  simp

theorem nodup_extractKeys (items : List MonitoredItem) : (extractKeys items).Nodup :=
  nodup_extract_aux items [] List.nodup_nil

theorem stringSliceSort_sorted (l : List String) (hl : l.Nodup) :
    List.Sorted (fun a b : String => a < b) (stringSliceSort l) := by
  unfold stringSliceSort
  have h1 : List.Sorted (fun a b : String => a ≤ b)
      (l.insertionSort (fun a b => a ≤ b)) :=
    List.sorted_insertionSort (fun a b : String => a ≤ b) l
  have h2 : (l.insertionSort (fun a b : String => a ≤ b)).Nodup :=
    (List.perm_insertionSort (fun a b : String => a ≤ b) l).nodup_iff.2 hl
  exact h1.lt_of_le h2

theorem mem_stringSliceSort (l : List String) (x : String) :
    x ∈ stringSliceSort l ↔ x ∈ l := by
  unfold stringSliceSort
  exact List.mem_insertionSort _

theorem doQuery_items (source : Monitorable) (app : monitorApp) :
    (doQuery source app).items
      = sortSlice (less app.currentKey)
          (keptItems (source.FetchAll (stringsTrim app.queryBuffer "  \r\n\t"))) := by
  unfold doQuery keptItems
  simp only
  cases (source.FetchAll (stringsTrim app.queryBuffer "  \r\n\t")).2 <;> rfl

theorem doQuery_possibleKeys (source : Monitorable) (app : monitorApp) :
    (doQuery source app).possibleKeys
      = stringSliceSort (extractKeys
          (keptItems (source.FetchAll (stringsTrim app.queryBuffer "  \r\n\t")))) := by
  unfold doQuery keptItems
  simp only
  cases (source.FetchAll (stringsTrim app.queryBuffer "  \r\n\t")).2 <;> rfl

theorem doQuery_currentKey (source : Monitorable) (app : monitorApp) :
    (doQuery source app).currentKey = app.currentKey := by
  unfold doQuery
  simp only
  cases (source.FetchAll (stringsTrim app.queryBuffer "  \r\n\t")).2 <;> rfl

theorem doQuery_err (source : Monitorable) (app : monitorApp) :
    (doQuery source app).err
      = (source.FetchAll (stringsTrim app.queryBuffer "  \r\n\t")).2 := by
  unfold doQuery
  simp only
  cases (source.FetchAll (stringsTrim app.queryBuffer "  \r\n\t")).2 <;> rfl

/-! ### Lemmas on the table renderer -/

theorem intercalate_go_append (p a sep : String) (l : List String) :
    String.intercalate.go (p ++ a) sep l = p ++ String.intercalate.go a sep l := by
  induction l generalizing a with
  | nil => rfl
  | cons b bs ih =>
    simp only [String.intercalate.go]
    rw [← ih (a ++ sep ++ b)]
    simp only [String.append_assoc]

theorem intercalate_go_eq (v sep : String) (l : List String) :
    String.intercalate.go v sep l = v ++ joinTail sep sep l := by
  cases l with
  | nil => simp [String.intercalate.go, joinTail]
  | cons w ws =>
    simp only [String.intercalate.go, joinTail]
    rw [← String.append_assoc, intercalate_go_append]

theorem joinTail_cons (first sep v : String) (vs : List String) :
    joinTail first sep (v :: vs) = first ++ (v ++ joinTail sep sep vs) := by
  rw [← intercalate_go_eq]
  rfl

theorem joinTail_empty_first (sep : String) (l : List String) :
    joinTail "" sep l = String.intercalate sep l := by
  cases l with
  | nil => rfl
  | cons v vs => simp [joinTail, String.intercalate]

theorem matchesKey_compiled (lib : RegexpLib) (ms : List lib.Regexp) (k : String) :
    matchesKey lib (ms.map some) k = some (ms.any (fun m => lib.MatchString m k)) := by
  induction ms with
  | nil => rfl
  | cons m rest ih =>
    simp only [List.map_cons, matchesKey, List.any_cons]
    by_cases h : lib.MatchString m k = true
    · simp [h]
    · simp [h, ih]

theorem compileMatchers_all_compile (lib : RegexpLib) (patterns : List String)
    (h : ∀ p ∈ patterns, (lib.Compile p).isSome = true) :
    compileMatchers lib patterns = (patterns.filterMap lib.Compile).map some := by
  unfold compileMatchers
  induction patterns with
  | nil => rfl
  | cons p ps ih =>
    have hp := h p (List.mem_cons_self p ps)
    have hps : ∀ q ∈ ps, (lib.Compile q).isSome = true :=
      fun q hq => h q (List.mem_cons_of_mem p hq)
    cases hc : lib.Compile p with
    | none => rw [hc] at hp; exact absurd hp (by simp)
    | some r =>
      rw [List.map_cons, List.filterMap_cons_some hc, List.map_cons, ih hps, hc]

theorem rowLoop_compiled (lib : RegexpLib) (ms : List lib.Regexp) (item : MonitoredItem)
    (ck : String) (ks : List String) (out sep : String) :
    ∃ sep1, rowLoop lib (ms.map some) item ck ks (out, sep)
      = some (out ++ joinTail sep "\t"
          ((ks.filter (fun k =>
              decide (k ≠ ck) && ms.any (fun m => lib.MatchString m k))).map item.GetValue),
          sep1) := by
  induction ks generalizing out sep with
  | nil => exact ⟨sep, by simp [rowLoop, joinTail]⟩
  | cons k ks ih =>
    by_cases hk : k = ck
    · obtain ⟨sep1, h1⟩ := ih out sep
      refine ⟨sep1, ?_⟩
      rw [rowLoop, if_pos hk, h1]
      simp [List.filter_cons, hk]
    · rw [rowLoop, if_neg hk, matchesKey_compiled]
      by_cases hm : (ms.any (fun m => lib.MatchString m k)) = true
      · obtain ⟨sep1, h1⟩ := ih (out ++ sep ++ item.GetValue k) "\t"
        refine ⟨sep1, ?_⟩
        rw [hm]
        simp only
        rw [h1]
        have hf : (List.filter
            (fun k => decide (k ≠ ck) && ms.any (fun m => lib.MatchString m k)) (k :: ks))
            = k :: List.filter
              (fun k => decide (k ≠ ck) && ms.any (fun m => lib.MatchString m k)) ks := by
          rw [List.filter_cons]
          simp [hk, hm]
        rw [hf, List.map_cons, joinTail_cons]
        simp only [String.append_assoc]
      · have hm2 : (ms.any (fun m => lib.MatchString m k)) = false := by
          simpa using hm
        obtain ⟨sep1, h1⟩ := ih out sep
        refine ⟨sep1, ?_⟩
        rw [hm2]
        simp only
        rw [h1]
        have hf : (List.filter
            (fun k => decide (k ≠ ck) && ms.any (fun m => lib.MatchString m k)) (k :: ks))
            = List.filter
              (fun k => decide (k ≠ ck) && ms.any (fun m => lib.MatchString m k)) ks := by
          rw [List.filter_cons]
          simp [hm2]
        rw [hf]

theorem tableLoop_compiled (lib : RegexpLib) (ms : List lib.Regexp) (appKey : String)
    (items : List MonitoredItem) (out crlf : String) :
    tableLoop lib (ms.map some) appKey items (out, crlf)
      = some (out ++ joinTail crlf "\n" (items.map (rowSpec lib ms appKey))) := by
  induction items generalizing out crlf with
  | nil => simp [tableLoop, joinTail]
  | cons item rest ih =>
    obtain ⟨sep1, h1⟩ :=
      rowLoop_compiled lib ms item (getKeyName appKey item) item.GetKeys (out ++ crlf) ""
    rw [tableLoop]
    simp only
    rw [h1]
    simp only
    rw [ih, joinTail_empty_first, List.map_cons, joinTail_cons]
    simp only [rowSpec, keptKeys, String.append_assoc]

theorem matchesKey_panics (lib : RegexpLib) (matchers : List (Option lib.Regexp))
    (k : String) (hnil : none ∈ matchers)
    (hno : ∀ r, some r ∈ matchers → lib.MatchString r k = false) :
    matchesKey lib matchers k = none := by
  induction matchers with
  | nil => exact absurd hnil (List.not_mem_nil _)
  | cons m rest ih =>
    cases m with
    | none => rfl
    | some r =>
      have hr : lib.MatchString r k = false := hno r (List.mem_cons_self _ _)
      have hnil2 : none ∈ rest := by
        rcases List.mem_cons.1 hnil with h | h
        · exact absurd h (by simp)
        · exact h
      simp only [matchesKey, hr]
      exact ih hnil2 (fun r2 h2 => hno r2 (List.mem_cons_of_mem _ h2))

theorem rowLoop_panics (lib : RegexpLib) (matchers : List (Option lib.Regexp))
    (item : MonitoredItem) (ck k : String) (ks : List String) (st : String × String)
    (hk : k ∈ ks) (hne : k ≠ ck) (hpanic : matchesKey lib matchers k = none) :
    rowLoop lib matchers item ck ks st = none := by
  induction ks generalizing st with
  | nil => exact absurd hk (List.not_mem_nil _)
  | cons k1 rest ih =>
    rw [rowLoop]
    by_cases h1 : k1 = k
    · subst h1
      rw [if_neg hne, hpanic]
    · have hrest : k ∈ rest := by
        rcases List.mem_cons.1 hk with h | h
        · exact absurd h.symm h1
        · exact h
      split_ifs
      · exact ih _ hrest
      · cases hm : matchesKey lib matchers k1 with
        | none => rfl
        | some b =>
          cases b with
          | false => exact ih _ hrest
          | true => exact ih _ hrest

theorem tableLoop_panics (lib : RegexpLib) (matchers : List (Option lib.Regexp))
    (appKey : String) (items : List MonitoredItem) (st : String × String)
    (item : MonitoredItem) (k : String) (hitem : item ∈ items) (hk : k ∈ item.GetKeys)
    (hne : k ≠ getKeyName appKey item) (hpanic : matchesKey lib matchers k = none) :
    tableLoop lib matchers appKey items st = none := by
  induction items generalizing st with
  | nil => exact absurd hitem (List.not_mem_nil _)
  | cons it rest ih =>
    rw [tableLoop]
    rcases List.mem_cons.1 hitem with h | h
    · subst h
      rw [rowLoop_panics lib matchers item _ k _ _ hk hne hpanic]
    · cases hrow : rowLoop lib matchers it (getKeyName appKey it) it.GetKeys
          (st.1 ++ st.2, "") with
      | none => rfl
      | some st1 => exact ih _ h

/-! ### Theorems on the pipeline -/

/-- C5: after doQuery the stored items are sorted ascending by the value of
their effective key (GetValue of currentKey when it is not empty, of the
primary key of the item otherwise): no item has a value smaller than the value
of an item placed before it. -/
theorem doQuery_items_sorted (source : Monitorable) (app : monitorApp) :
    List.Pairwise
      (fun a b =>
        ¬ (b.GetValue (if (doQuery source app).currentKey ≠ "" then
              (doQuery source app).currentKey else b.GetPrimaryKey)
            < a.GetValue (if (doQuery source app).currentKey ≠ "" then
              (doQuery source app).currentKey else a.GetPrimaryKey)))
      (doQuery source app).items := by
  rw [doQuery_items, doQuery_currentKey]
  exact List.Pairwise.imp (fun {a b} hab => not_lt.2 hab)
    (sortSlice_less_sorted app.currentKey _)

/-- C6: after doQuery, possibleKeys is strictly ascending (ascending and
without duplicates), it contains k exactly when some current item has the
primary key k or lists k among its keys, and it is empty exactly when the
items are empty. -/
theorem doQuery_possibleKeys_spec (source : Monitorable) (app : monitorApp) :
    List.Sorted (fun a b : String => a < b) (doQuery source app).possibleKeys ∧
    (doQuery source app).possibleKeys.Nodup ∧
    (∀ k, k ∈ (doQuery source app).possibleKeys ↔
      ∃ item ∈ (doQuery source app).items,
        item.GetPrimaryKey = k ∨ k ∈ item.GetKeys) ∧
    ((doQuery source app).items = [] ↔ (doQuery source app).possibleKeys = []) := by
  have hmem : ∀ k, k ∈ (doQuery source app).possibleKeys ↔
      ∃ item ∈ (doQuery source app).items,
        item.GetPrimaryKey = k ∨ k ∈ item.GetKeys := by
    intro k
    rw [doQuery_possibleKeys, doQuery_items, mem_stringSliceSort, mem_extractKeys]
    constructor
    · rintro ⟨item, hi, hk⟩
      exact ⟨item, (sortSlice_perm _ _).mem_iff.2 hi, hk⟩
    · rintro ⟨item, hi, hk⟩
      exact ⟨item, (sortSlice_perm _ _).mem_iff.1 hi, hk⟩
  have hsorted : List.Sorted (fun a b : String => a < b)
      (doQuery source app).possibleKeys := by
    rw [doQuery_possibleKeys]
    exact stringSliceSort_sorted _ (nodup_extractKeys _)
  refine ⟨hsorted, ?_, hmem, ?_⟩
  · exact List.Pairwise.imp (fun {a b} hab => ne_of_lt hab) hsorted
  · constructor
    · intro h
      apply List.eq_nil_iff_forall_not_mem.2
      intro k hk
      obtain ⟨item, hi, _⟩ := (hmem k).1 hk
      rw [h] at hi
      exact List.not_mem_nil _ hi
    · intro h
      apply List.eq_nil_iff_forall_not_mem.2
      intro item hi
      have hk : item.GetPrimaryKey ∈ (doQuery source app).possibleKeys :=
        (hmem _).2 ⟨item, hi, Or.inl rfl⟩
      rw [h] at hk
      exact List.not_mem_nil _ hk

/-- C7: when FetchAll returns an error, doQuery ends with that error stored,
no items and no possible keys, whatever the state held before. -/
theorem doQuery_fetch_error (source : Monitorable) (app : monitorApp)
    (returned : List MonitoredItem) (e : String)
    (h : source.FetchAll (stringsTrim app.queryBuffer "  \r\n\t") = (returned, some e)) :
    (doQuery source app).err = some e ∧
    (doQuery source app).items = [] ∧
    (doQuery source app).possibleKeys = [] := by
  refine ⟨?_, ?_, ?_⟩
  · rw [doQuery_err, h]
  · rw [doQuery_items, h]; rfl
  · rw [doQuery_possibleKeys, h]; rfl

/-- Witness of C7: the sample source rejects the query made of blanks only. -/
theorem doQuery_fetch_error_witness :
    sampleSource.FetchAll
        (stringsTrim (sampleApp " \n" ".*" detailMode.modeDetail).queryBuffer "  \r\n\t")
      = ([], some "Empty query") ∧
    (doQuery sampleSource (sampleApp " \n" ".*" detailMode.modeDetail)).err
      = some "Empty query" ∧
    (doQuery sampleSource (sampleApp " \n" ".*" detailMode.modeDetail)).items = [] ∧
    (doQuery sampleSource (sampleApp " \n" ".*" detailMode.modeDetail)).possibleKeys = [] :=
  ⟨rfl, doQuery_fetch_error sampleSource (sampleApp " \n" ".*" detailMode.modeDetail)
    [] "Empty query" rfl⟩

/-- C8: when FetchAll succeeds, doQuery ends with no error stored and with
items that are a permutation of the returned sequence. -/
theorem doQuery_fetch_success (source : Monitorable) (app : monitorApp)
    (returned : List MonitoredItem)
    (h : source.FetchAll (stringsTrim app.queryBuffer "  \r\n\t") = (returned, none)) :
    (doQuery source app).err = none ∧
    List.Perm (doQuery source app).items returned := by
  refine ⟨?_, ?_⟩
  · rw [doQuery_err, h]
  · rw [doQuery_items, h]
    exact sortSlice_perm _ _

/-- Witness of C8: the sample source answers the query /tmp with two items. -/
theorem doQuery_fetch_success_witness :
    sampleSource.FetchAll
        (stringsTrim (sampleApp "/tmp\n" ".*" detailMode.modeDetail).queryBuffer "  \r\n\t")
      = ([sampleItemB, sampleItemA], none) ∧
    (doQuery sampleSource (sampleApp "/tmp\n" ".*" detailMode.modeDetail)).err = none ∧
    List.Perm (doQuery sampleSource (sampleApp "/tmp\n" ".*" detailMode.modeDetail)).items
      [sampleItemB, sampleItemA] :=
  ⟨rfl, doQuery_fetch_success sampleSource (sampleApp "/tmp\n" ".*" detailMode.modeDetail)
    [sampleItemB, sampleItemA] rfl⟩


/-! ### Theorems on the table renderer -/

/-- C9 (failing inputs): in table mode, when a token of the filter text fails
to compile and some item has a key, different from its effective key, that no
compiled pattern matches, redrawTable does not complete: the nil matcher kept
for the invalid token is dereferenced and the renderer panics. -/
theorem redrawTable_invalid_token_panics (lib : RegexpLib) (tabwriter : String → String)
    (app : monitorApp) (p : String) (item : MonitoredItem) (k : String)
    (hmode : app.mode = detailMode.modeTable)
    (hp : p ∈ filterPatterns app.filterBuffer) (hbad : lib.Compile p = none)
    (hitem : item ∈ app.items) (hk : k ∈ item.GetKeys)
    (hne : k ≠ getKeyName app.currentKey item)
    (hno : ∀ q ∈ filterPatterns app.filterBuffer, ∀ r, lib.Compile q = some r →
      lib.MatchString r k = false) :
    redrawTable lib tabwriter app = none := by
  have hnil : none ∈ compileMatchers lib (filterPatterns app.filterBuffer) := by
    unfold compileMatchers
    exact List.mem_map.2 ⟨p, hp, hbad⟩
  have hno2 : ∀ r, some r ∈ compileMatchers lib (filterPatterns app.filterBuffer) →
      lib.MatchString r k = false := by
    intro r hr
    unfold compileMatchers at hr
    obtain ⟨q, hq, hqr⟩ := List.mem_map.1 hr
    exact hno q hq r hqr
  have hpanic := matchesKey_panics lib _ k hnil hno2
  have htext : tableText lib app = none :=
    tableLoop_panics lib _ app.currentKey app.items ("", "") item k hitem hk hne hpanic
  unfold redrawTable
  rw [if_neg (by simp [hmode]), htext]

/-- Witness of C9: table mode, the filter text is the single invalid pattern
"(" and the first sample item has the key size next to its primary key. -/
theorem redrawTable_invalid_token_panics_witness :
    redrawTable literalRegexp id (sampleApp "/tmp" "(" detailMode.modeTable) = none :=
  redrawTable_invalid_token_panics literalRegexp id
    (sampleApp "/tmp" "(" detailMode.modeTable) "(" sampleItemB "size"
    rfl (by decide) rfl (by simp [sampleApp]) (by decide) (by decide)
    (by
      intro q hq r hr
      have hq2 : q = "(" := by
        have : filterPatterns (sampleApp "/tmp" "(" detailMode.modeTable).filterBuffer
            = ["("] := by decide
        rw [this] at hq
        simpa using hq
      subst hq2
      rw [show literalRegexp.Compile "(" = none from rfl] at hr
      exact absurd hr (by simp))

/-- C10: in table mode, when every token of the filter text compiles, the text
that redrawTable writes is the rows of the items, in the order of the items,
separated by line breaks; the row of an item is the values, joined by a single
tab, of the keys of the item, in its own order, that differ from its effective
key and match at least one compiled filter. -/
theorem redrawTable_table_text (lib : RegexpLib) (tabwriter : String → String)
    (app : monitorApp) (hmode : app.mode = detailMode.modeTable)
    (hall : ∀ p ∈ filterPatterns app.filterBuffer, (lib.Compile p).isSome = true) :
    tableText lib app
      = some (String.intercalate "\n" (app.items.map (fun item =>
          String.intercalate "\t"
            ((keptKeys lib ((filterPatterns app.filterBuffer).filterMap lib.Compile)
              app.currentKey item).map item.GetValue)))) ∧
    redrawTable lib tabwriter app
      = some { app with
          detailBuffer := tabwriter
            (tableSpec lib ((filterPatterns app.filterBuffer).filterMap lib.Compile)
              app.currentKey app.items) } ∧
    (∀ (item : MonitoredItem) (k : String),
      k ∈ keptKeys lib ((filterPatterns app.filterBuffer).filterMap lib.Compile)
          app.currentKey item ↔
        k ∈ item.GetKeys ∧
        k ≠ (if app.currentKey ≠ "" then app.currentKey else item.GetPrimaryKey) ∧
        ∃ p ∈ filterPatterns app.filterBuffer, ∃ r, lib.Compile p = some r ∧
          lib.MatchString r k = true) := by
  have htext : tableText lib app
      = some (tableSpec lib ((filterPatterns app.filterBuffer).filterMap lib.Compile)
          app.currentKey app.items) := by
    unfold tableText
    rw [compileMatchers_all_compile lib _ hall, tableLoop_compiled, String.empty_append,
      joinTail_empty_first]
    rfl
  refine ⟨htext, ?_, ?_⟩
  · unfold redrawTable
    rw [if_neg (by simp [hmode]), htext]
  · intro item k
    unfold keptKeys getKeyName
    simp only [List.mem_filter, Bool.and_eq_true, decide_eq_true_eq, List.any_eq_true,
      List.mem_filterMap]
    constructor
    · rintro ⟨h1, h2, r, ⟨p, hp, hpr⟩, hr⟩
      exact ⟨h1, h2, p, hp, r, hpr, hr⟩
    · rintro ⟨h1, h2, p, hp, r, hpr, hr⟩
      exact ⟨h1, h2, r, ⟨p, hp, hpr⟩, hr⟩

/-- Witness of C10: table mode with the filter text " mode ,siz" on the two
sample items; the rows are "10" and "7", tab, "rw". -/
theorem redrawTable_table_text_witness :
    tableText literalRegexp (sampleApp "/tmp" " mode ,siz" detailMode.modeTable)
      = some "10\n7\trw" :=
  (redrawTable_table_text literalRegexp id
    (sampleApp "/tmp" " mode ,siz" detailMode.modeTable) rfl (by decide)).1.trans rfl

/-! ### Lemmas on the focus and the handlers -/

theorem doQuery_frame (source : Monitorable) (app : monitorApp) :
    (doQuery source app).mode = app.mode ∧
    (doQuery source app).filterBuffer = app.filterBuffer ∧
    (doQuery source app).current = app.current := by
  unfold doQuery
  simp only
  cases (source.FetchAll (stringsTrim app.queryBuffer "  \r\n\t")).2 <;> exact ⟨rfl, rfl, rfl⟩

theorem choosePanel_frame (panel : Panel) (app : monitorApp) :
    (choosePanel panel app).mode = app.mode ∧
    (choosePanel panel app).filterBuffer = app.filterBuffer ∧
    (choosePanel panel app).detailBuffer = app.detailBuffer ∧
    (choosePanel panel app).current = some panel := by
  cases panel <;> exact ⟨rfl, rfl, rfl, rfl⟩

theorem redrawList_frame (app : monitorApp) :
    (redrawList app).mode = app.mode ∧
    (redrawList app).filterBuffer = app.filterBuffer ∧
    (redrawList app).detailBuffer = "" ∧
    (redrawList app).current = (if app.err = none then some Panel.list else app.current) := by
  unfold redrawList
  simp only
  by_cases herr : app.err = none
  · simp only [herr, if_true]
    unfold listSetCursor listSetOrigin
    split_ifs <;> exact ⟨rfl, rfl, rfl, rfl⟩
  · simp only [herr, if_false]
    exact ⟨trivial, trivial, trivial, trivial⟩

theorem redrawTable_renders (lib : RegexpLib) (tabwriter : String → String)
    (app : monitorApp) (hr : tableRenders lib app) :
    ∃ app1, redrawTable lib tabwriter app = some app1 ∧
      app1.mode = app.mode ∧ app1.filterBuffer = app.filterBuffer ∧
      app1.current = app.current ∧
      (app.mode = detailMode.modeDetail → app1.detailBuffer = app.detailBuffer) := by
  unfold redrawTable
  by_cases hm : app.mode = detailMode.modeTable
  · have hall : ∀ p ∈ filterPatterns app.filterBuffer, (lib.Compile p).isSome = true := by
      rcases hr with h | h
      · rw [hm] at h; exact absurd h (by decide)
      · exact h
    have htext : tableText lib app
        = some (tableSpec lib ((filterPatterns app.filterBuffer).filterMap lib.Compile)
            app.currentKey app.items) := by
      unfold tableText
      rw [compileMatchers_all_compile lib _ hall, tableLoop_compiled, String.empty_append,
        joinTail_empty_first]
      rfl
    rw [if_neg (by simp [hm]), htext]
    refine ⟨_, rfl, rfl, rfl, rfl, ?_⟩
    intro h
    rw [hm] at h
    exact absurd h (by decide)
  · rw [if_pos hm]
    exact ⟨app, rfl, rfl, rfl, rfl, fun _ => rfl⟩

theorem tableRenders_congr (lib : RegexpLib) (app app1 : monitorApp)
    (hmode : app1.mode = app.mode) (hfilter : app1.filterBuffer = app.filterBuffer)
    (hr : tableRenders lib app) : tableRenders lib app1 := by
  unfold tableRenders at hr ⊢
  rw [hmode, hfilter]
  exact hr

theorem enterHandler_result (lib : RegexpLib) (tabwriter : String → String)
    (source : Monitorable) (app : monitorApp) (hr : tableRenders lib app) :
    ∃ app1, enterHandler lib tabwriter source app = some app1 ∧
      app1.mode = app.mode ∧ app1.filterBuffer = app.filterBuffer ∧
      app1.current = (if (doQuery source app).err = none then some Panel.list
        else app.current) ∧
      (app.mode = detailMode.modeDetail → app1.detailBuffer = "") := by
  obtain ⟨hd1, hd2, hd3⟩ := doQuery_frame source app
  obtain ⟨hl1, hl2, hl3, hl4⟩ := redrawList_frame (doQuery source app)
  have hr2 : tableRenders lib (redrawList (doQuery source app)) :=
    tableRenders_congr lib app _ (hl1.trans hd1) (hl2.trans hd2) hr
  obtain ⟨app1, h1, h2, h3, h4, h5⟩ := redrawTable_renders lib tabwriter _ hr2
  refine ⟨app1, h1, h2.trans (hl1.trans hd1), h3.trans (hl2.trans hd2), ?_, ?_⟩
  · rw [h4, hl4, hd3]
  · intro hm
    rw [h5 ((hl1.trans hd1).trans hm), hl3]

theorem tabHandler_step (lib : RegexpLib) (tabwriter : String → String)
    (source : Monitorable) (app : monitorApp) (hr : tableRenders lib app) :
    (app.current = some Panel.query →
      ∃ app1, tabHandler lib tabwriter source app = some app1 ∧
        app1.current = some Panel.filter ∧ tableRenders lib app1 ∧
        (app.mode = detailMode.modeDetail → app1.detailBuffer = "")) ∧
    (app.current = some Panel.filter →
      ∃ app1, tabHandler lib tabwriter source app = some app1 ∧
        app1.current = some Panel.list ∧ tableRenders lib app1) ∧
    (app.current = some Panel.list →
      ∃ app1, tabHandler lib tabwriter source app = some app1 ∧
        app1.current = some Panel.query ∧ tableRenders lib app1) := by
  refine ⟨?_, ?_, ?_⟩
  · intro hc
    obtain ⟨app1, h1, h2, h3, _, h5⟩ := enterHandler_result lib tabwriter source app hr
    unfold enterHandler at h1
    simp only at h1
    obtain ⟨c1, c2, c3, c4⟩ := choosePanel_frame Panel.filter app1
    refine ⟨choosePanel Panel.filter app1, ?_, c4, ?_, ?_⟩
    · unfold tabHandler
      rw [hc]
      simp only
      rw [h1]
    · exact tableRenders_congr lib app _ (c1.trans h2) (c2.trans h3) hr
    · intro hm
      rw [c3, h5 hm]
  · intro hc
    obtain ⟨app1, h1, h2, h3, _, _⟩ := redrawTable_renders lib tabwriter app hr
    obtain ⟨c1, c2, _, c4⟩ := choosePanel_frame Panel.list app1
    refine ⟨choosePanel Panel.list app1, ?_, c4, ?_⟩
    · unfold tabHandler
      rw [hc]
      simp only
      rw [h1]
    · exact tableRenders_congr lib app _ (c1.trans h2) (c2.trans h3) hr
  · intro hc
    obtain ⟨c1, c2, _, c4⟩ := choosePanel_frame Panel.query app
    refine ⟨choosePanel Panel.query app, ?_, c4, ?_⟩
    · unfold tabHandler
      rw [hc]
    · exact tableRenders_congr lib app _ c1 c2 hr

theorem choosePanel_data (panel : Panel) (app : monitorApp) :
    (choosePanel panel app).err = app.err ∧
    (choosePanel panel app).items = app.items ∧
    (choosePanel panel app).possibleKeys = app.possibleKeys := by
  cases panel <;> exact ⟨rfl, rfl, rfl⟩

theorem redrawList_data (app : monitorApp) :
    (redrawList app).err = app.err ∧
    (redrawList app).items = app.items ∧
    (redrawList app).possibleKeys = app.possibleKeys := by
  unfold redrawList listSetCursor listSetOrigin
  simp only
  split_ifs <;> exact ⟨rfl, rfl, rfl⟩

theorem redrawTable_data (lib : RegexpLib) (tabwriter : String → String)
    (app app1 : monitorApp) (h : redrawTable lib tabwriter app = some app1) :
    app1.err = app.err ∧ app1.items = app.items ∧
    app1.possibleKeys = app.possibleKeys := by
  unfold redrawTable at h
  split_ifs at h
  · cases h
    exact ⟨rfl, rfl, rfl⟩
  · cases htext : tableText lib app with
    | none => rw [htext] at h; cases h
    | some text =>
      rw [htext] at h
      cases h
      exact ⟨rfl, rfl, rfl⟩

theorem tabHandler_query_pipeline (lib : RegexpLib) (tabwriter : String → String)
    (source : Monitorable) (app : monitorApp) (hr : tableRenders lib app)
    (hc : app.current = some Panel.query) :
    ∃ app1, tabHandler lib tabwriter source app = some app1 ∧
      app1.current = some Panel.filter ∧
      app1.err = (doQuery source app).err ∧
      app1.items = (doQuery source app).items ∧
      app1.possibleKeys = (doQuery source app).possibleKeys := by
  obtain ⟨hd1, hd2, _⟩ := doQuery_frame source app
  obtain ⟨hl1, hl2, _, _⟩ := redrawList_frame (doQuery source app)
  have hr2 : tableRenders lib (redrawList (doQuery source app)) :=
    tableRenders_congr lib app _ (hl1.trans hd1) (hl2.trans hd2) hr
  obtain ⟨app0, h0, _⟩ := redrawTable_renders lib tabwriter _ hr2
  obtain ⟨t1, t2, t3⟩ := redrawTable_data lib tabwriter _ app0 h0
  obtain ⟨l1, l2, l3⟩ := redrawList_data (doQuery source app)
  obtain ⟨c1, c2, c3⟩ := choosePanel_data Panel.filter app0
  refine ⟨choosePanel Panel.filter app0, ?_, (choosePanel_frame Panel.filter app0).2.2.2,
    c1.trans (t1.trans l1), c2.trans (t2.trans l2), c3.trans (t3.trans l3)⟩
  unfold tabHandler
  rw [hc]
  simp only
  rw [h0]

theorem mapItem_lookup_absent (mi : mapItem) (k : String) (hk : k ∉ mapItem.GetKeys mi) :
    mi.lookup k = none := by
  unfold mapItem.GetKeys at hk
  induction mi with
  | nil => rfl
  | cons e rest ih =>
    obtain ⟨k1, v1⟩ := e
    simp only [List.map_cons, List.mem_cons, not_or] at hk
    rw [List.lookup_cons]
    have hne : (k == k1) = false := by
      simpa using hk.1
    rw [hne]
    exact ih hk.2

/-- The map item answers an unknown key with the empty string. -/
theorem mapItem_getValue_unknown (mi : mapItem) (k : String)
    (hk : k ∉ mapItem.GetKeys mi) : mapItem.GetValue mi k = "" := by
  unfold mapItem.GetValue
  rw [mapItem_lookup_absent mi k hk]

/-- The file item answers every key outside its four keys with a dash. -/
theorem fileItem_getValue_unknown (modeString : Nat → String) (timeString : Int → String)
    (fi : fileItem) (k : String) (hk : k ∉ fileItem.GetKeys fi) :
    fileItem.GetValue modeString timeString fi k = "-" := by
  unfold fileItem.GetKeys at hk
  simp only [List.mem_cons, List.mem_singleton, List.not_mem_nil, or_false, not_or] at hk
  unfold fileItem.GetValue
  rw [if_neg hk.1, if_neg hk.2.1, if_neg hk.2.2.1, if_neg hk.2.2.2]

/-! ### Theorems on the detail renderer, the focus and the example sources -/

/-- C11: with the cursor and the origin of the list not negative (the terminal
library keeps them so), redrawDetail in detail mode completes and leaves in the
detail panel the GetDetail text of items[index], index = cursorY + originY,
when the index is within the bounds of items, and the empty text otherwise; in
table mode it completes and leaves the state, hence the detail panel,
unchanged. -/
theorem redrawDetail_spec (app : monitorApp) (hcy : 0 ≤ app.listCy) (hoy : 0 ≤ app.listOy) :
    (app.mode = detailMode.modeDetail →
      ∃ app1, redrawDetail app = some app1 ∧
        (∀ item, app.items[(app.listCy + app.listOy).toNat]? = some item →
          app1.detailBuffer = item.GetDetail) ∧
        ((app.items.length : Int) ≤ app.listCy + app.listOy → app1.detailBuffer = "")) ∧
    (app.mode = detailMode.modeTable → redrawDetail app = some app) := by
  have hidx : ¬ (app.listCy + app.listOy < 0) := by omega
  constructor
  · intro hm
    unfold redrawDetail
    simp only [hidx, if_false, hm, if_true]
    by_cases hlt : app.listCy + app.listOy < (app.items.length : Int)
    · simp only [hlt, if_true]
      cases hget : app.items[(app.listCy + app.listOy).toNat]? with
      | none =>
        have hlen := List.getElem?_eq_none_iff.1 hget
        omega
      | some item =>
        refine ⟨_, rfl, ?_, ?_⟩
        · intro item1 h1
          cases h1
          exact String.empty_append _
        · intro hle
          omega
    · simp only [hlt, if_false]
      refine ⟨_, rfl, ?_, fun _ => rfl⟩
      intro item h1
      have hlen : (app.listCy + app.listOy).toNat < app.items.length := by
        by_contra hcon
        rw [List.getElem?_eq_none_iff.2 (not_lt.1 hcon)] at h1
        cases h1
      omega
  · intro hm
    unfold redrawDetail
    simp only [hidx, if_false, hm]
    by_cases hlt : app.listCy + app.listOy < (app.items.length : Int)
    · simp only [hlt, if_true]
      rfl
    · simp only [hlt, if_false]
      rfl

/-- Witness of C11: detail mode, cursor on the second row of the two sample
items. -/
theorem redrawDetail_spec_witness :
    ∃ app1, redrawDetail
        { sampleApp "/tmp" ".*" detailMode.modeDetail with listCy := 1 } = some app1 ∧
      app1.detailBuffer = "a.txt (7)" := by
  obtain ⟨app1, h1, h2, _⟩ :=
    (redrawDetail_spec { sampleApp "/tmp" ".*" detailMode.modeDetail with listCy := 1 }
      (by decide) (by decide)).1 rfl
  exact ⟨app1, h1, h2 sampleItemA rfl⟩

/-- C12 (as stated, refuted): in detail mode the Enter key on a query that
succeeds with the single item sampleItemA ends with no error, that item
stored, the list cursor and origin at 0, and an empty detail panel, which is
not the GetDetail text of the item. -/
theorem enterHandler_detail_not_rendered :
    (enterHandler literalRegexp id sampleSourceOne
        (sampleApp "/tmp" ".*" detailMode.modeDetail)).map
      (fun a => (a.err, a.items.map (fun i => i.GetDetail), a.listCy + a.listOy,
        a.detailBuffer))
      = some (none, ["a.txt (7)"], 0, "") ∧
    ("" : String) ≠ sampleItemA.GetDetail := by
  constructor
  · rfl
  · decide

/-- C12 (amended): in detail mode a query execution through the Enter key, or
through the Tab key pressed in the query panel, completes and leaves the
detail panel empty, whether the fetch succeeds or fails. -/
theorem query_handlers_clear_detail (lib : RegexpLib) (tabwriter : String → String)
    (source : Monitorable) (app : monitorApp) (hmode : app.mode = detailMode.modeDetail) :
    (∃ app1, enterHandler lib tabwriter source app = some app1 ∧
      app1.detailBuffer = "") ∧
    (app.current = some Panel.query →
      ∃ app1, tabHandler lib tabwriter source app = some app1 ∧
        app1.detailBuffer = "") := by
  have hr : tableRenders lib app := Or.inl hmode
  constructor
  · obtain ⟨app1, h1, _, _, _, h5⟩ := enterHandler_result lib tabwriter source app hr
    exact ⟨app1, h1, h5 hmode⟩
  · intro hc
    obtain ⟨app1, h1, _, _, h4⟩ := (tabHandler_step lib tabwriter source app hr).1 hc
    exact ⟨app1, h1, h4 hmode⟩

/-- Witness of C12 (amended): detail mode, the Enter key on the sample
source. -/
theorem query_handlers_clear_detail_witness :
    ∃ app1, enterHandler literalRegexp id sampleSource
        (sampleApp "/tmp" ".*" detailMode.modeDetail) = some app1 ∧
      app1.detailBuffer = "" :=
  (query_handlers_clear_detail literalRegexp id sampleSource
    (sampleApp "/tmp" ".*" detailMode.modeDetail) rfl).1

/-- C13 (as stated, refuted): with the focus on the query panel, the Enter key
on a query that succeeds ends with the focus on the list panel. -/
theorem enterHandler_moves_focus :
    (sampleApp "/tmp" ".*" detailMode.modeDetail).current = some Panel.query ∧
    (enterHandler literalRegexp id sampleSource
        (sampleApp "/tmp" ".*" detailMode.modeDetail)).map (fun a => (a.err, a.current))
      = some (none, some Panel.list) := by
  constructor <;> rfl

/-- C13 (amended): when the table can be rendered, the Enter handler completes;
it leaves the focus unchanged when the fetch fails and ends with the focus on
the list panel when the fetch succeeds. -/
theorem enterHandler_focus (lib : RegexpLib) (tabwriter : String → String)
    (source : Monitorable) (app : monitorApp) (hr : tableRenders lib app) :
    ∃ app1, enterHandler lib tabwriter source app = some app1 ∧
      app1.err = (source.FetchAll (stringsTrim app.queryBuffer "  \r\n\t")).2 ∧
      (app1.err ≠ none → app1.current = app.current) ∧
      (app1.err = none → app1.current = some Panel.list) := by
  obtain ⟨app1, h1, h2, h3, h4, _⟩ := enterHandler_result lib tabwriter source app hr
  have herr : app1.err = (doQuery source app).err := by
    have hl : (redrawList (doQuery source app)).err = (doQuery source app).err := by
      unfold redrawList listSetCursor listSetOrigin
      simp only
      split_ifs <;> rfl
    unfold enterHandler redrawTable at h1
    simp only at h1
    split_ifs at h1
    · cases h1; exact hl
    · cases htext : tableText lib (redrawList (doQuery source app)) with
      | none => rw [htext] at h1; cases h1
      | some text => rw [htext] at h1; cases h1; exact hl
  refine ⟨app1, h1, herr.trans (doQuery_err source app), ?_, ?_⟩
  · intro hne
    rw [h4, if_neg (herr ▸ hne)]
  · intro he
    rw [h4, if_pos (herr ▸ he)]

/-- Witness of C13 (amended): the Enter key with the focus on the query panel
and a query of blanks only, which the sample source rejects. -/
theorem enterHandler_focus_witness :
    ∃ app1, enterHandler literalRegexp id sampleSource
        (sampleApp " \n" ".*" detailMode.modeDetail) = some app1 ∧
      app1.err = some "Empty query" ∧ app1.current = some Panel.query := by
  obtain ⟨app1, h1, h2, h3, _⟩ :=
    enterHandler_focus literalRegexp id sampleSource
      (sampleApp " \n" ".*" detailMode.modeDetail) (Or.inl rfl)
  have he : app1.err = some "Empty query" := h2.trans rfl
  exact ⟨app1, h1, he, (h3 (by rw [he]; simp)).trans rfl⟩

/-- C14 (as stated, refuted): in table mode with the filter text "(", which
does not compile, the Tab key pressed in the filter panel, and the Tab key
pressed in the query panel on a query that succeeds, do not end on the next
panel: the table renderer panics before choosePanel is reached. -/
theorem tabHandler_panics_on_invalid_filter :
    ({ sampleApp "/tmp" "(" detailMode.modeTable with
        current := some Panel.filter }).current = some Panel.filter ∧
    tabHandler literalRegexp id sampleSource
      { sampleApp "/tmp" "(" detailMode.modeTable with current := some Panel.filter }
      = none ∧
    (sampleApp "/tmp" "(" detailMode.modeTable).current = some Panel.query ∧
    tabHandler literalRegexp id sampleSourceOne (sampleApp "/tmp" "(" detailMode.modeTable)
      = none :=
  ⟨rfl, rfl, rfl, rfl⟩

/-- C14 (amended): when the table can be rendered (detail mode, or every token
of the filter text compiles), the Tab handler completes.  From the query panel
it runs the pipeline (the error, the items and the possible keys are those of
doQuery, the error being the one FetchAll returned) and ends with the focus on
the filter panel, whether the fetch succeeds or fails; from the filter panel
it ends on the list panel; from the list panel it ends on the query panel.
Three consecutive presses bring the focus back to the panel it started from,
and after startup the focus is on the query panel. -/
theorem tabHandler_cycle (lib : RegexpLib) (tabwriter : String → String)
    (source : Monitorable) (app : monitorApp) (hr : tableRenders lib app) :
    (app.current = some Panel.query →
      ∃ app1, tabHandler lib tabwriter source app = some app1 ∧
        app1.current = some Panel.filter ∧
        app1.err = (source.FetchAll (stringsTrim app.queryBuffer "  \r\n\t")).2 ∧
        app1.items = (doQuery source app).items ∧
        app1.possibleKeys = (doQuery source app).possibleKeys) ∧
    (app.current = some Panel.filter →
      ∃ app1, tabHandler lib tabwriter source app = some app1 ∧
        app1.current = some Panel.list) ∧
    (app.current = some Panel.list →
      ∃ app1, tabHandler lib tabwriter source app = some app1 ∧
        app1.current = some Panel.query) ∧
    (∀ panel, panel ∈ [Panel.query, Panel.filter, Panel.list] →
      app.current = some panel →
      ∃ app1 app2 app3, tabHandler lib tabwriter source app = some app1 ∧
        tabHandler lib tabwriter source app1 = some app2 ∧
        tabHandler lib tabwriter source app2 = some app3 ∧
        app3.current = some panel) ∧
    (∀ firstQuery maxY, (startup source firstQuery maxY).current = some Panel.query) := by
  obtain ⟨hq, hf, hl⟩ := tabHandler_step lib tabwriter source app hr
  refine ⟨?_, ?_, ?_, ?_, ?_⟩
  · intro hc
    obtain ⟨app1, h1, h2, h3, h4, h5⟩ :=
      tabHandler_query_pipeline lib tabwriter source app hr hc
    exact ⟨app1, h1, h2, h3.trans (doQuery_err source app), h4, h5⟩
  · intro hc
    obtain ⟨app1, h1, h2, _⟩ := hf hc
    exact ⟨app1, h1, h2⟩
  · intro hc
    obtain ⟨app1, h1, h2, _⟩ := hl hc
    exact ⟨app1, h1, h2⟩
  · intro panel hp hc
    simp only [List.mem_cons, List.mem_singleton, List.not_mem_nil, or_false] at hp
    rcases hp with hp | hp | hp
    · subst hp
      obtain ⟨app1, h1, c1, r1, _⟩ := hq hc
      obtain ⟨app2, h2, c2, r2⟩ := (tabHandler_step lib tabwriter source app1 r1).2.1 c1
      obtain ⟨app3, h3, c3, _⟩ := (tabHandler_step lib tabwriter source app2 r2).2.2 c2
      exact ⟨app1, app2, app3, h1, h2, h3, c3⟩
    · subst hp
      obtain ⟨app1, h1, c1, r1⟩ := hf hc
      obtain ⟨app2, h2, c2, r2⟩ := (tabHandler_step lib tabwriter source app1 r1).2.2 c1
      obtain ⟨app3, h3, c3, _⟩ := (tabHandler_step lib tabwriter source app2 r2).1 c2
      exact ⟨app1, app2, app3, h1, h2, h3, c3⟩
    · subst hp
      obtain ⟨app1, h1, c1, r1⟩ := hl hc
      obtain ⟨app2, h2, c2, r2, _⟩ := (tabHandler_step lib tabwriter source app1 r1).1 c1
      obtain ⟨app3, h3, c3, _⟩ := (tabHandler_step lib tabwriter source app2 r2).2.1 c2
      exact ⟨app1, app2, app3, h1, h2, h3, c3⟩
  · intro firstQuery maxY
    exact (choosePanel_frame Panel.query _).2.2.2

/-- Witness of C14 (amended): the Tab key pressed in the query panel of the
sample application, whose query succeeds, ends on the filter panel with no
error stored. -/
theorem tabHandler_cycle_witness :
    ∃ app1, tabHandler literalRegexp id sampleSource
        (sampleApp "/tmp" ".*" detailMode.modeDetail) = some app1 ∧
      app1.current = some Panel.filter ∧ app1.err = none := by
  obtain ⟨app1, h1, h2, h3, _⟩ :=
    (tabHandler_cycle literalRegexp id sampleSource
      (sampleApp "/tmp" ".*" detailMode.modeDetail) (Or.inl rfl)).1 rfl
  exact ⟨app1, h1, h2, h3.trans rfl⟩

/-- C15 (failing input): after startup, two presses of the Tab key move the
focus to the filter panel and then to the list panel; the filter panel keeps
the cyan background that choosePanel gave it, so two panels are highlighted. -/
theorem choosePanel_keeps_filter_highlight :
    (((tabHandler literalRegexp id sampleSourceOne (startup sampleSourceOne "/tmp" 24)).bind
        (tabHandler literalRegexp id sampleSourceOne)).map
      (fun a => (a.current, a.bgQuery, a.bgFilter, a.bgError, a.bgList, a.bgDetail)))
      = some (some Panel.list, Color.ColorDefault, Color.ColorCyan, Color.ColorDefault,
          Color.ColorCyan, Color.ColorDefault) ∧
    (∀ app : monitorApp,
      panelBgColor (choosePanel Panel.list (choosePanel Panel.filter app)) Panel.filter
        = Color.ColorCyan ∧
      panelBgColor (choosePanel Panel.list (choosePanel Panel.filter app)) Panel.list
        = Color.ColorCyan) := by
  constructor
  · rfl
  · intro app
    exact ⟨rfl, rfl⟩

/-- C16 (failing inputs): the key owner is not a key of the sample file item
and its GetValue is a dash; the key size is not a key of the sample object item
and its GetValue is the text of the nil value.  Neither is the empty string. -/
theorem getValue_unknown_key_not_empty :
    (∀ (modeString : Nat → String) (timeString : Int → String),
      "owner" ∉ fileItem.GetKeys sampleFile ∧
      fileItem.GetValue modeString timeString sampleFile "owner" = "-") ∧
    "size" ∉ ObjectItem.GetKeys sampleObject ∧
    ObjectItem.GetValue sampleObject "size" = "<nil>" ∧
    ("-" : String) ≠ "" ∧ ("<nil>" : String) ≠ "" := by
  refine ⟨fun _ _ => ⟨by decide, rfl⟩, by decide, rfl, by decide, by decide⟩

/-- The event log is not empty in general: an absolute path makes the
directory source read the directory, a query that is not empty makes the
remote source dial the agent, and each turn of the loop of the synthetic source
looks an item up. -/
theorem fetchAll_nonempty_query_events :
    (directorySource.FetchAll (fun _ => true) (fun _ => ([sampleFile], none)) "/tmp").events
      = [SourceEvent.readDir "/tmp"] ∧
    (extenTitanObjectsSource.FetchAll (fun _ => some "refused") (fun _ => ("", none))
        (fun _ => ([], none)) "127.0.0.1").events
      = [SourceEvent.dialHTTP "127.0.0.1:2233"] ∧
    (lookupLoop ["a", "b", "c"] 2 7 ([], [])).2
      = [SourceEvent.itemLookup 1, SourceEvent.itemLookup 2] := by
  refine ⟨rfl, rfl, ?_⟩
  decide

/-- C17: for the three example sources, FetchAll of the empty query returns
the error Empty query and no items, and performs no directory read, no item
lookup and no network call, whatever the outside world would answer. -/
theorem fetchAll_empty_query :
    (∀ (isAbs : String → Bool) (readDir : String → List fileItem × Option String),
      (directorySource.FetchAll isAbs readDir "").items = [] ∧
      (directorySource.FetchAll isAbs readDir "").err = some "Empty query" ∧
      (directorySource.FetchAll isAbs readDir "").events = []) ∧
    (∀ (ι : Type) (items : List ι) (offsetOf : String → Nat),
      ∃ r, staticMapsSource.FetchAll items offsetOf "" = some r ∧
        r.items = [] ∧ r.err = some "Empty query" ∧ r.events = []) ∧
    (∀ (dial : String → Option String) (call : String → String × Option String)
      (decode : String → List ObjectItem × Option String),
      (extenTitanObjectsSource.FetchAll dial call decode "").items = [] ∧
      (extenTitanObjectsSource.FetchAll dial call decode "").err = some "Empty query" ∧
      (extenTitanObjectsSource.FetchAll dial call decode "").events = []) := by
  refine ⟨fun _ _ => ⟨rfl, rfl, rfl⟩, fun _ _ _ => ⟨_, rfl, rfl, rfl, rfl⟩,
    fun _ _ _ => ⟨rfl, rfl, rfl⟩⟩

end Cui
